import Mathlib

set_option autoImplicit false

/-
Verification of the lisa core layer: the kdump distro-variant dispatch
(src/lisa/tools/kdump.py), the version parser and pattern utilities
(src/lisa/util/init), the bounded-retry decorator uses
(src/microsoft/testsuites/network/common.py), and the poll-until-match
primitive (src/microsoft/testsuites/core/timesync.py).
-/

/-- Version value as produced by the external semver package (VersionInfo used
by src/lisa/util/init): major, minor and patch numbers plus optional
prerelease and build strings. -/
structure SemVer where
  major : Nat
  minor : Nat
  patch : Nat
  prerelease : Option String
  build : Option String
deriving DecidableEq

/-- Operating-system family classification behind the isinstance dispatch of
KdumpBase.create: Redhat, Debian and Suse are disjoint class families of
lisa.operating_system, and other stands for any node whose family is none of
the three. -/
inductive OsFamily where
  | redhat
  | debian
  | suse
  | other
deriving DecidableEq

/-- Node operating-system description: the family classification plus the name
and version the node exposes as os.name and os.information.version. -/
structure OperatingSystem where
  family : OsFamily
  name : String
  version : SemVer

/-- Errors raised by the kdump module. Every constructor models a subclass of
LisaException from src/lisa/util/init: unsupportedDistro models
UnsupportedDistroException, which stores os.name and os.information.version of
the node it was raised for; lisaException models a plain LisaException with
its message. -/
inductive KdumpError where
  | unsupportedDistro (name : String) (version : SemVer)
  | lisaException (msg : String)
deriving DecidableEq

/-- Concrete kdump tool variants: KdumpRedhat, KdumpDebian and KdumpSuse of
src/lisa/tools/kdump.py. -/
inductive KdumpVariant where
  | redhat
  | debian
  | suse
deriving DecidableEq

namespace KdumpBase

/-- KdumpBase.create (src/lisa/tools/kdump.py lines 174 to 183): the isinstance
dispatch over the node os returning the family-specific variant, or raising
UnsupportedDistroException(os=node.os) for every other family. -/
def create (os : OperatingSystem) : Except KdumpError KdumpVariant :=
  match os.family with
  | .redhat => .ok .redhat
  | .debian => .ok .debian
  | .suse => .ok .suse
  | .other => .error (.unsupportedDistro os.name os.version)

end KdumpBase

/-- Command property of each concrete variant. -/
def KdumpVariant.command : KdumpVariant → String
  | .redhat => "kdumpctl"
  | .debian => "kdump-config"
  | .suse => "kdumptool"

/-- Service name that KdumpBase.enable_kdump_service (lines 276 to 282) passes
to Service.enable_service when a subclass does not override the hook. -/
def kdump_base_service_name : String := "kdump"

/-- Service name passed to Service.enable_service by the enable_kdump_service
hook of each variant: KdumpDebian (lines 424 to 426) overrides the hook and
enables kdump-tools; KdumpRedhat and KdumpSuse inherit the KdumpBase
implementation. -/
def KdumpVariant.enable_kdump_service : KdumpVariant → String
  | .debian => "kdump-tools"
  | _ => kdump_base_service_name

/-- Bounded retry-with-delay, modelling the retry decorator of the external
retry package as used at src/lisa/tools/kdump.py line 298 and
src/microsoft/testsuites/network/common.py line 25. Here f i is the outcome of
attempt i (zero-based), caught e tells whether a raised exception is an
instance of the decorator exceptions argument, and the last argument is the
number of remaining attempts (the tries argument; every use in the repository
passes a positive count, and zero remaining attempts keeps the one-attempt
meaning for totality). An uncaught exception propagates at once; a caught one
is re-raised when it happens on the last attempt; otherwise the decorator
sleeps for the fixed delay, which only consumes time and is not represented,
and re-invokes the operation. -/
def retryRun {E A : Type} (f : Nat → Except E A) (caught : E → Bool) :
    Nat → Nat → Except E A
  | i, 0 => f i
  | i, 1 => f i
  | i, t + 2 =>
    match f i with
    | .ok a => .ok a
    | .error e => if caught e then retryRun f caught (i + 1) (t + 1) else .error e

/-- Observable remote state read by KdumpBase.check_crashkernel_loaded: the
contents of /proc/cmdline, the existence of /sys/kernel/kexec_crash_loaded,
the successive force_run cat reads of that flag file (read i is what retry
attempt i sees), and the contents of /proc/iomem. -/
structure KdumpNodeState where
  cmdline : String
  kexecCrashExists : Bool
  kexecCrashReads : Nat → String
  iomem : String

/-- Python substring membership over character lists. -/
def pyInAux (needle : List Char) : List Char → Bool
  | [] => needle.isEmpty
  | c :: rest => needle.isPrefixOf (c :: rest) || pyInAux needle rest

/-- Python substring membership (needle in haystack) on strings. -/
def pyInStr (needle hay : String) : Bool := pyInAux needle.data hay.data

namespace KdumpBase

/-- KdumpBase._check_crashkernel_in_cmdline (lines 308 to 315): require the
crashkernel parameter in the live kernel command line. The error message
reproduces the adjacent f-string literals of the source, which concatenate
without a space. -/
def _check_crashkernel_in_cmdline (st : KdumpNodeState) (crashkernel_memory : String) :
    Except KdumpError Unit :=
  if pyInStr ("crashkernel=" ++ crashkernel_memory) st.cmdline then .ok ()
  else
    .error (.lisaException
      ("crashkernel=" ++ crashkernel_memory ++ " boot parameter is not present in" ++
        "kernel cmdline"))

/-- Predicate for the decorator argument exceptions=LisaException: every
KdumpError constructor models a LisaException subclass, so all are caught. -/
def lisaExceptionCaught : KdumpError → Bool := fun _ => true

/-- KdumpBase._check_kexec_crash_loaded (lines 298 to 306): one force_run cat
of the flag file must read exactly 1, under the decorator
retry(exceptions=LisaException, tries=60, delay=1). The source message uses an
apostrophe, elided here. -/
def _check_kexec_crash_loaded (st : KdumpNodeState) : Except KdumpError Unit :=
  retryRun
    (fun i =>
      if st.kexecCrashReads i = "1" then .ok ()
      else .error (.lisaException "/sys/kernel/kexec_crash_loaded file value is not 1."))
    lisaExceptionCaught 0 60

/-- KdumpBase._check_crashkernel_memory_reserved (lines 317 to 324): require a
Crash kernel entry in the physical memory map. The source quotes the words
Crash kernel with apostrophes, elided here. -/
def _check_crashkernel_memory_reserved (st : KdumpNodeState) : Except KdumpError Unit :=
  if pyInStr "Crash kernel" st.iomem then .ok ()
  else
    .error (.lisaException
      ("No find Crash kernel in /proc/iomem. Memory is not reserved for" ++ "crash kernel"))

/-- KdumpBase.check_crashkernel_loaded (lines 326 to 338): check the command
line, then the existence of the flag file, then its value under bounded retry,
then the memory map; the first failing check raises. -/
def check_crashkernel_loaded (st : KdumpNodeState) (crashkernel_memory : String) :
    Except KdumpError Unit :=
  match _check_crashkernel_in_cmdline st crashkernel_memory with
  | .error e => .error e
  | .ok _ =>
    if st.kexecCrashExists then
      match _check_kexec_crash_loaded st with
      | .error e => .error e
      | .ok _ => _check_crashkernel_memory_reserved st
    else
      .error (.lisaException
        "/sys/kernel/kexec_crash_loaded file does not exist. Kexec crash is not loaded.")

end KdumpBase

/-- Expected-value argument of _wait_file_changed
(src/microsoft/testsuites/core/timesync.py lines 21 to 38), a Python
Optional[Union[str, List[str]]]. A list expects membership of the read, a
plain string expects equality, and None never matches because a Python str
never equals None. -/
def matchesExpected (stdout : String) (expected : Option (String ⊕ List String)) : Bool :=
  match expected with
  | some (.inr values) => values.contains stdout
  | some (.inl value) => stdout = value
  | none => false

/-- Polling loop of _wait_file_changed. Time is idealized as the sum of the
sleeps: the loop sleeps half a second after every non-matching read and its
timeout is sixty seconds, so time is counted in half-second units and the fuel
argument starts at 120 and stands for the remaining units before the timer
check fails; reads are treated as instantaneous. Here reads i is the stdout of
the i-th force_run cat of the file. Returns the boolean result paired with the
elapsed half-second units at the moment of return. -/
def pollLoop (reads : Nat → String) (expected : Option (String ⊕ List String)) :
    Nat → Nat → Bool × Nat
  | _, 0 => (false, 0)
  | i, fuel + 1 =>
    if matchesExpected (reads i) expected then (true, 0)
    else
      let r := pollLoop reads expected (i + 1) fuel
      (r.1, r.2 + 1)

/-- Top-level _wait_file_changed: timeout of sixty seconds with half-second
sleeps, hence 120 half-second units of fuel starting at read zero. -/
def _wait_file_changed (reads : Nat → String) (expected : Option (String ⊕ List String)) :
    Bool × Nat :=
  pollLoop reads expected 0 120

/-- Helper of the model of str.splitlines: accumulate the current line in
reverse and cut at each terminator. -/
def splitLinesAux : List Char → List Char → List (List Char)
  | [], acc => if acc.isEmpty then [] else [acc.reverse]
  | '\r' :: '\n' :: rest, acc => acc.reverse :: splitLinesAux rest []
  | '\r' :: rest, acc => acc.reverse :: splitLinesAux rest []
  | '\n' :: rest, acc => acc.reverse :: splitLinesAux rest []
  | c :: rest, acc => splitLinesAux rest (c :: acc)

/-- Python str.splitlines with keepends False, modelled for the terminators
newline, carriage-return newline, and carriage return (the forms that occur in
remote command output); a trailing terminator produces no extra empty line. -/
def pySplitlines (s : String) : List String := (splitLinesAux s.data []).map String.mk

/-- Matches of all patterns over all lines in line-major, pattern-minor order:
exactly the sequence of appends performed by the loop of
find_patterns_groups_in_lines. A compiled Pattern with named groups is
abstracted, through Pattern.match followed by Match.groupdict, as a function
from a line to an optional group dictionary of type alpha. -/
def combinedGroupMatches {α : Type} (lines : String) (patterns : List (String → Option α)) :
    List α :=
  (pySplitlines lines).flatMap (fun line => patterns.filterMap (fun p => p line))

/-- find_patterns_groups_in_lines (src/lisa/util/init lines 343 to 355). The
source initializes results as the Python list-repeat of one empty list, which
makes every index of the outer list an alias of a single shared inner list;
every append through any index therefore lands in that one list, and the
returned value is len(patterns) references to it. -/
def find_patterns_groups_in_lines {α : Type} (lines : String)
    (patterns : List (String → Option α)) : List (List α) :=
  List.replicate patterns.length (combinedGroupMatches lines patterns)

/-- Errors raised by parse_version (src/lisa/util/init lines 419 to 454):
lisaException models the LisaException with the invalid-format message raised
on a failed search, valueError models the Python ValueError raised by int on a
non-numeric literal, carrying that literal. -/
inductive PyErr where
  | lisaException (msg : String)
  | valueError (literal : String)
deriving DecidableEq

/-- Digit characters to the number they denote, as Python int() on an all-digit
string; leading zeros are allowed, so int of 04 is 4. -/
def digitsToNat (l : List Char) : Nat := l.foldl (fun acc c => acc * 10 + (c.toNat - 48)) 0

/-- Numeric identifier of the semver grammar: 0, or a nonzero digit followed
by digits (no leading zero). -/
def isNumericIdent : List Char → Bool
  | [] => false
  | [c] => c.isDigit
  | c :: rest => c.isDigit && (c != '0') && rest.all Char.isDigit

/-- Characters allowed in semver prerelease and build identifiers. -/
def allowedIdentChar (c : Char) : Bool := c.isAlpha || c.isDigit || c == '-'

/-- Alphanumeric prerelease identifier of the semver grammar: digits, then one
letter or hyphen, then identifier characters; equivalently a nonempty string
of identifier characters holding at least one non-digit. -/
def isAlnumIdent (l : List Char) : Bool :=
  !l.isEmpty && l.all allowedIdentChar && l.any (fun c => !c.isDigit)

/-- Prerelease identifier of the semver grammar. -/
def isPrereleaseIdent (l : List Char) : Bool := isNumericIdent l || isAlnumIdent l

/-- Build identifier of the semver grammar: nonempty identifier characters. -/
def isBuildIdent (l : List Char) : Bool := !l.isEmpty && l.all allowedIdentChar

/-- Python str.split on a single separator character: always at least one
piece, empty pieces preserved. -/
def splitOnChar (sep : Char) : List Char → List (List Char)
  | [] => [[]]
  | c :: rest =>
    if c = sep then [] :: splitOnChar sep rest
    else
      match splitOnChar sep rest with
      | [] => [[c]]
      | p :: ps => (c :: p) :: ps

/-- Front parser for one numeric identifier of the semver core: take the
maximal digit run and require it to be 0 or leading-zero free. Taking the
maximal run is equivalent to the anchored semver regex, where the character
after a core component can never be a digit. -/
def numIdentFront (l : List Char) : Option (Nat × List Char) :=
  let ds := l.takeWhile Char.isDigit
  if isNumericIdent ds then some (digitsToNat ds, l.drop ds.length) else none

/-- Consume one expected literal character. -/
def expectChar (c : Char) : List Char → Option (List Char)
  | x :: rest => if x = c then some rest else none
  | [] => none

/-- Split at the first plus sign, the separator in front of semver build
metadata; the second component is none when no plus sign occurs. -/
def splitAtFirstPlus : List Char → List Char × Option (List Char)
  | [] => ([], none)
  | c :: rest =>
    if c = '+' then ([], some rest)
    else
      let r := splitAtFirstPlus rest
      (c :: r.1, r.2)

/-- Model of VersionInfo.isvalid plus VersionInfo.parse of the external semver
package (the anchored semver regex): the parsed VersionInfo when the string is
a valid semver version, none otherwise. The prerelease part runs from the
first hyphen after the patch number to the first plus sign or the end; the
build part follows the first plus sign. -/
def semverParse (s : String) : Option SemVer := do
  let (major, r1) ← numIdentFront s.data
  let r2 ← expectChar '.' r1
  let (minor, r3) ← numIdentFront r2
  let r4 ← expectChar '.' r3
  let (patch, r5) ← numIdentFront r4
  match r5 with
  | [] => some ⟨major, minor, patch, none, none⟩
  | '-' :: r6 =>
    let pb := splitAtFirstPlus r6
    if (splitOnChar '.' pb.1).all isPrereleaseIdent then
      match pb.2 with
      | none => some ⟨major, minor, patch, some (String.mk pb.1), none⟩
      | some b =>
        if (splitOnChar '.' b).all isBuildIdent then
          some ⟨major, minor, patch, some (String.mk pb.1), some (String.mk b)⟩
        else none
    else none
  | '+' :: r6 =>
    if (splitOnChar '.' r6).all isBuildIdent then
      some ⟨major, minor, patch, none, some (String.mk r6)⟩
    else none
  | _ => none

/-- Prefixes of a list made of characters satisfying p, shortest first, each
paired with the corresponding remainder: the attempt order of a lazy
quantifier over the character class p. -/
def prefixesWhile (p : Char → Bool) : List Char → List (List Char × List Char)
  | [] => [([], [])]
  | c :: rest =>
    ([], c :: rest) ::
      (if p c then (prefixesWhile p rest).map (fun pr => (c :: pr.1, pr.2)) else [])

/-- Attempt order of the greedy optional leading v of the lenient version
pattern: consume a leading v or V first, fall back to not consuming it. -/
def vChoices : List Char → List (List Char)
  | [] => [[]]
  | c :: rest => if c = 'v' ∨ c = 'V' then [rest, c :: rest] else [c :: rest]

/-- Consume one separator of the lenient version pattern: period, hyphen or
underscore. -/
def sepHead : List Char → Option (List Char)
  | c :: rest => if c = '.' ∨ c = '-' ∨ c = '_' then some rest else none
  | [] => none

/-- Attempt order of one greedy optional group of the lenient pattern holding
a separator followed by a lazy quantifier over the class p: all attempts with
the group participating come first (separator consumed, then prefixes shortest
first), then the single attempt with the group skipped. -/
def optSepGroupChoices (p : Char → Bool) (l : List Char) :
    List (Option (List Char) × List Char) :=
  (match sepHead l with
   | some r => (prefixesWhile p r).map (fun pr => (some pr.1, pr.2))
   | none => []) ++ [(none, l)]

/-- Dollar anchor without MULTILINE: it matches at the end of the string or
just before a terminal newline. The remainder at the anchor is exactly the
slice of the input after match.end. -/
def endAnchor (l : List Char) : Bool := l.isEmpty || l = ['\n']

/-- Group dictionary of a successful match of the lenient version pattern (the
module-level version_info_pattern of src/lisa/util/init, lines 56 to 60):
major and minor always participate, possibly as empty strings; patch and
prerelease are optional groups whose value is none when the group is skipped;
rest is the slice of the input after match.end. -/
structure LenientMatch where
  major : List Char
  minor : List Char
  patch : Option (List Char)
  prerelease : Option (List Char)
  rest : List Char
deriving DecidableEq

/-- All candidate matches of the lenient version pattern, in the attempt order
of the backtracking regex engine. The pattern is caret-anchored and MULTILINE
is off, so re.search can only match at position zero and returns the first
candidate of this enumeration. The numeric groups are lazy, hence shortest
first; the two optional groups are greedy, hence participation first; the
prerelease group is a lazy dot-star, so it ranges over characters other than
newline. The VERBOSE flag of the source only strips whitespace from the
pattern text, which holds none. -/
def lenientCandidates (s : String) : List LenientMatch :=
  (vChoices s.data).flatMap (fun r0 =>
    (prefixesWhile Char.isDigit r0).flatMap (fun mj =>
      (sepHead mj.2).toList.flatMap (fun r2 =>
        (prefixesWhile Char.isDigit r2).flatMap (fun mn =>
          (optSepGroupChoices Char.isDigit mn.2).flatMap (fun pa =>
            (optSepGroupChoices (fun c => c != '\n') pa.2).flatMap (fun pr =>
              if endAnchor pr.2 then [⟨mj.1, mn.1, pa.1, pr.1, pr.2⟩] else []))))))

/-- Result of re.search of the lenient version pattern on the input. -/
def lenientMatch (s : String) : Option LenientMatch := (lenientCandidates s).head?

/-- Python int() on a regex group value, which here is always a run of digit
characters: an empty group raises ValueError, otherwise the denoted number. -/
def pyIntDigits (ds : List Char) : Except PyErr Nat :=
  if !ds.isEmpty && ds.all Char.isDigit then .ok (digitsToNat ds)
  else .error (.valueError (String.mk ds))

/-- parse_version (src/lisa/util/init lines 419 to 454): a valid semver string
is parsed directly; otherwise the lenient pattern is searched, a failed search
raises the LisaException invalid-format message, and on a match the major,
minor and patch groups are converted with int in that order (a group that did
not participate is replaced by zero before conversion, while a participating
empty group makes int raise ValueError), the prerelease group is passed
through unchanged, and the slice of the input after match.end becomes the
build component. -/
def parse_version (s : String) : Except PyErr SemVer :=
  match semverParse s with
  | some v => .ok v
  | none =>
    match lenientMatch s with
    | none => .error (.lisaException ("The version is invalid format: " ++ s))
    | some m => do
      let major ← pyIntDigits m.major
      let minor ← pyIntDigits m.minor
      let patch ←
        match m.patch with
        | none => Except.ok 0
        | some p => pyIntDigits p
      Except.ok ⟨major, minor, patch, m.prerelease.map String.mk, some (String.mk m.rest)⟩

/-- Recognizer of the parse_version format error, the LisaException raised on
a failed search of the lenient pattern. -/
def isFormatError : Except PyErr SemVer → Bool
  | .error (.lisaException _) => true
  | _ => false

/-- Python cmp on two strings: lexicographic comparison by code point. -/
def pyStrCmp : List Char → List Char → Ordering
  | [], [] => .eq
  | [], _ :: _ => .lt
  | _ :: _, [] => .gt
  | a :: xs, b :: ys =>
    if a < b then .lt else if b < a then .gt else pyStrCmp xs ys

/-- Conversion applied by semver nat-cmp to one dot-separated prerelease part:
all-digit parts become ints, the others stay strings. -/
def preTagOfPart (l : List Char) : Sum Nat (List Char) :=
  if !l.isEmpty && l.all Char.isDigit then .inl (digitsToNat l) else .inr l

/-- Comparison of one pair of converted prerelease parts: two ints compare
numerically, an int is below a string, two strings compare as Python cmp. -/
def cmpPreTag : Sum Nat (List Char) → Sum Nat (List Char) → Ordering
  | .inl a, .inl b => compare a b
  | .inl _, .inr _ => .lt
  | .inr _, .inl _ => .gt
  | .inr a, .inr b => pyStrCmp a b

/-- Pairwise comparison of converted prerelease parts over the zip of the two
lists; none when the zip is exhausted with only ties. -/
def natCmpParts : List (Sum Nat (List Char)) → List (Sum Nat (List Char)) → Option Ordering
  | a :: xs, b :: ys =>
    (match cmpPreTag a b with
     | .eq => natCmpParts xs ys
     | o => some o)
  | _, _ => none

/-- Nat-cmp of the semver package on two prerelease strings: split both on
periods, convert the parts, compare pairwise over the zip, and break a full
tie by the lengths of the two original strings. -/
def natCmp (a b : List Char) : Ordering :=
  match natCmpParts ((splitOnChar '.' a).map preTagOfPart)
      ((splitOnChar '.' b).map preTagOfPart) with
  | some o => o
  | none => compare a.length b.length

/-- Python truthiness of the prerelease field as used by VersionInfo.compare:
None and the empty string are falsy and behave as absent. -/
def truthyPre : Option String → Option String
  | some p => if p = "" then none else some p
  | none => none

/-- VersionInfo.compare of the external semver package: major, minor and patch
compare numerically in that order; then a falsy prerelease compares above a
truthy one, and two truthy prereleases go through nat-cmp; build is ignored. -/
def compareVer (a b : SemVer) : Ordering :=
  match compare a.major b.major with
  | .eq =>
    match compare a.minor b.minor with
    | .eq =>
      match compare a.patch b.patch with
      | .eq =>
        match truthyPre a.prerelease, truthyPre b.prerelease with
        | none, none => .eq
        | none, some _ => .gt
        | some _, none => .lt
        | some x, some y => natCmp x.data y.data
      | o => o
    | o => o
  | o => o

section RetryLemmas

variable {E A : Type} (f : Nat → Except E A) (caught : E → Bool)

/-- Helper: with a caught failure at the head of the budget, the retry loop
steps to the next attempt. -/
lemma retryRun_step (i m : Nat) {e : E} (he : f i = .error e) (hc : caught e = true) :
    retryRun f caught i (m + 2) = retryRun f caught (i + 1) (m + 1) := by
  simp only [retryRun]
  rw [he]
  simp [hc]

/-- Helper: a run that fails with caught exceptions on the first k attempts and
succeeds on attempt k, within the remaining budget, returns the success. -/
lemma retryRun_succeeds : ∀ (k t i : Nat) (a : A),
    (∀ j, j < k → ∃ e, f (i + j) = .error e ∧ caught e = true) →
    f (i + k) = .ok a → k < t → retryRun f caught i t = .ok a := by
  intro k
  induction k with
  | zero =>
    intro t i a _ hok _
    rw [Nat.add_zero] at hok
    match t with
    | 0 => simpa [retryRun] using hok
    | 1 => simpa [retryRun] using hok
    | m + 2 => simp only [retryRun]; rw [hok]
  | succ k ih =>
    intro t i a hfail hok hlt
    match t with
    | 0 => omega
    | 1 => omega
    | m + 2 =>
      obtain ⟨e, he, hc⟩ := hfail 0 (by omega)
      rw [Nat.add_zero] at he
      rw [retryRun_step f caught i m he hc]
      apply ih (m + 1) (i + 1) a
      · intro j hj
        obtain ⟨e2, he2, hc2⟩ := hfail (j + 1) (by omega)
        exact ⟨e2, by rw [show i + 1 + j = i + (j + 1) by omega]; exact he2, hc2⟩
      · rw [show i + 1 + k = i + (k + 1) by omega]; exact hok
      · omega

/-- Helper: a run that fails with caught exceptions on every attempt of the
budget re-raises the failure of the last attempt. -/
lemma retryRun_exhausts : ∀ (t i : Nat), 1 ≤ t →
    (∀ j, j < t → ∃ e, f (i + j) = .error e ∧ caught e = true) →
    ∃ e, f (i + (t - 1)) = .error e ∧ retryRun f caught i t = .error e := by
  intro t
  induction t with
  | zero => omega
  | succ t ih =>
    intro i _ hfail
    match t, ih with
    | 0, _ =>
      obtain ⟨e, he, _⟩ := hfail 0 (by omega)
      rw [Nat.add_zero] at he
      exact ⟨e, by simpa using he, by simpa [retryRun] using he⟩
    | m + 1, ih =>
      obtain ⟨e0, he0, hc0⟩ := hfail 0 (by omega)
      rw [Nat.add_zero] at he0
      obtain ⟨e, he, hr⟩ := ih (i + 1) (by omega) (fun j hj => by
        obtain ⟨e2, he2, hc2⟩ := hfail (j + 1) (by omega)
        exact ⟨e2, by rw [show i + 1 + j = i + (j + 1) by omega]; exact he2, hc2⟩)
      refine ⟨e, ?_, ?_⟩
      · rw [show i + (m + 2 - 1) = i + 1 + (m + 1 - 1) by omega]; exact he
      · rw [retryRun_step f caught i m he0 hc0]
        exact hr

end RetryLemmas

/-- Helper: the retry of a read-equals-one check succeeds within a positive
budget exactly when some attempt inside the budget reads 1. -/
lemma retryReads_ok_iff (reads : Nat → String) (err : KdumpError) :
    ∀ (t : Nat), 1 ≤ t → ∀ (i : Nat),
      (retryRun (fun j => if reads j = "1" then .ok () else .error err)
          (fun _ => true) i t = .ok () ↔ ∃ j, j < t ∧ reads (i + j) = "1") := by
  intro t
  induction t with
  | zero => omega
  | succ t ih =>
    intro _ i
    match t, ih with
    | 0, _ =>
      constructor
      · intro h
        by_cases hr : reads i = "1"
        · exact ⟨0, by omega, by simpa using hr⟩
        · simp [retryRun, hr] at h
      · rintro ⟨j, hj, hr⟩
        have hj0 : j = 0 := by omega
        subst hj0
        rw [Nat.add_zero] at hr
        simp [retryRun, hr]
    | m + 1, ih =>
      by_cases hr : reads i = "1"
      · constructor
        · intro _; exact ⟨0, by omega, by simpa using hr⟩
        · intro _; simp only [retryRun]; simp [hr]
      · have hstep := @retryRun_step KdumpError Unit
          (fun j => if reads j = "1" then (.ok () : Except KdumpError Unit) else .error err)
          (fun _ => true) i m err (by simp [hr]) rfl
        rw [hstep, ih (by omega) (i + 1)]
        constructor
        · rintro ⟨j, hj, h⟩
          exact ⟨j + 1, by omega, by rw [show i + (j + 1) = i + 1 + j by omega]; exact h⟩
        · rintro ⟨j, hj, h⟩
          match j with
          | 0 => rw [Nat.add_zero] at h; exact absurd h hr
          | j + 1 =>
            exact ⟨j, by omega, by rw [show i + 1 + j = i + (j + 1) by omega]; exact h⟩

section PollLemmas

variable (reads : Nat → String) (expected : Option (String ⊕ List String))

/-- Helper: the polling loop returns true exactly when some read within the
fuel matches. -/
lemma pollLoop_true_iff : ∀ (fuel i : Nat),
    (pollLoop reads expected i fuel).1 = true ↔
      ∃ j, j < fuel ∧ matchesExpected (reads (i + j)) expected = true := by
  intro fuel
  induction fuel with
  | zero => intro i; simp [pollLoop]
  | succ fuel ih =>
    intro i
    by_cases hm : matchesExpected (reads i) expected = true
    · simp [pollLoop, hm]
      exact ⟨0, by omega, by simpa using hm⟩
    · simp only [pollLoop, if_neg hm]
      rw [show (let r := pollLoop reads expected (i + 1) fuel; (r.1, r.2 + 1)).1 =
        (pollLoop reads expected (i + 1) fuel).1 from rfl]
      rw [ih (i + 1)]
      constructor
      · rintro ⟨j, hj, h⟩
        exact ⟨j + 1, by omega, by rw [show i + (j + 1) = i + 1 + j by omega]; exact h⟩
      · rintro ⟨j, hj, h⟩
        match j with
        | 0 => rw [Nat.add_zero] at h; exact absurd h hm
        | j + 1 =>
          exact ⟨j, by omega, by rw [show i + 1 + j = i + (j + 1) by omega]; exact h⟩

/-- Helper: when no read within the fuel matches, the loop consumes the whole
fuel and returns false with the elapsed time equal to the timeout. -/
lemma pollLoop_nomatch : ∀ (fuel i : Nat),
    (∀ j, j < fuel → matchesExpected (reads (i + j)) expected = false) →
    pollLoop reads expected i fuel = (false, fuel) := by
  intro fuel
  induction fuel with
  | zero => intro i _; simp [pollLoop]
  | succ fuel ih =>
    intro i hno
    have h0 : matchesExpected (reads i) expected = false := by
      have := hno 0 (by omega)
      rwa [Nat.add_zero] at this
    simp only [pollLoop, h0]
    rw [ih (i + 1) (fun j hj => by
      have := hno (j + 1) (by omega)
      rwa [show i + (j + 1) = i + 1 + j by omega] at this)]
    simp

/-- Helper: the elapsed time at return never exceeds the fuel. -/
lemma pollLoop_elapsed_le : ∀ (fuel i : Nat), (pollLoop reads expected i fuel).2 ≤ fuel := by
  intro fuel
  induction fuel with
  | zero => intro i; simp [pollLoop]
  | succ fuel ih =>
    intro i
    by_cases hm : matchesExpected (reads i) expected = true
    · simp [pollLoop, hm]
    · simp only [pollLoop, if_neg hm]
      have := ih (i + 1)
      omega

end PollLemmas

/-- Helper: every entry of prefixesWhile is a prefix of characters satisfying
the class, paired with the matching remainder. -/
lemma prefixesWhile_mem (p : Char → Bool) :
    ∀ (l : List Char) (pr : List Char × List Char), pr ∈ prefixesWhile p l →
      pr.1.all p = true ∧ pr.1 ++ pr.2 = l := by
  intro l
  induction l with
  | nil =>
    intro pr hpr
    simp [prefixesWhile] at hpr
    simp [hpr]
  | cons c rest ih =>
    intro pr hpr
    simp only [prefixesWhile, List.mem_cons] at hpr
    rcases hpr with hpr | hpr
    · simp [hpr]
    · by_cases hc : p c
      · simp only [if_pos hc, List.mem_map] at hpr
        obtain ⟨q, hq, hqe⟩ := hpr
        obtain ⟨h1, h2⟩ := ih q hq
        subst hqe
        constructor
        · simp [hc, h1]
        · simp [h2]
      · simp [if_neg hc] at hpr

/-- Helper: the candidates for the optional leading v are suffixes of the
input, so their characters come from the input. -/
lemma vChoices_chars : ∀ (l r0 : List Char), r0 ∈ vChoices l → ∀ c, c ∈ r0 → c ∈ l := by
  intro l r0 h c hc
  match l with
  | [] => simp [vChoices] at h; simp [h] at hc
  | x :: rest =>
    by_cases hx : x = 'v' ∨ x = 'V'
    · simp [vChoices, hx] at h
      rcases h with h | h
      · subst h; exact List.mem_cons_of_mem x hc
      · simpa [h] using hc
    · simp [vChoices, hx] at h
      simpa [h] using hc

/-- Helper: the head of a list is a member. -/
lemma head?_mem {α : Type} (l : List α) (a : α) (h : l.head? = some a) : a ∈ l := by
  cases l <;> simp_all

/-- Helper: group facts of a successful search of the lenient pattern: the
major and minor groups hold only digits, and a nonempty major group exhibits a
digit character of the input. -/
lemma lenientMatch_groups (s : String) (m : LenientMatch) (hm : lenientMatch s = some m) :
    m.major.all Char.isDigit = true ∧ m.minor.all Char.isDigit = true ∧
      (m.major ≠ [] → ∃ c, c ∈ s.data ∧ c.isDigit = true) := by
  have hmem := head?_mem _ _ hm
  simp only [lenientCandidates, List.mem_flatMap] at hmem
  obtain ⟨r0, hr0, hmem⟩ := hmem
  obtain ⟨mj, hmj, hmem⟩ := hmem
  obtain ⟨r2, hr2, hmem⟩ := hmem
  obtain ⟨mn, hmn, hmem⟩ := hmem
  obtain ⟨pa, hpa, hmem⟩ := hmem
  obtain ⟨pr, hpr, hmem⟩ := hmem
  have hmeq : m = ⟨mj.1, mn.1, pa.1, pr.1, pr.2⟩ := by
    by_cases h : endAnchor pr.2 = true
    · simpa [h] using hmem
    · simp [h] at hmem
  obtain ⟨hmj1, hmj2⟩ := prefixesWhile_mem Char.isDigit r0 mj hmj
  obtain ⟨hmn1, _⟩ := prefixesWhile_mem Char.isDigit r2 mn hmn
  subst hmeq
  refine ⟨hmj1, hmn1, ?_⟩
  intro hne
  match hmj0 : mj.1, hne with
  | c :: _, _ =>
    refine ⟨c, ?_, ?_⟩
    · apply vChoices_chars s.data r0 hr0
      rw [← hmj2, hmj0]
      simp
    · have := hmj1
      rw [hmj0] at this
      simp only [List.all_cons, Bool.and_eq_true] at this
      exact this.1

/-- Helper: a nonempty takeWhile exhibits a member of the list satisfying the
predicate. -/
lemma takeWhile_head (p : Char → Bool) (l : List Char) (h : l.takeWhile p ≠ []) :
    ∃ c, c ∈ l ∧ p c = true := by
  match l with
  | [] => simp [List.takeWhile] at h
  | c :: rest =>
    by_cases hc : p c
    · exact ⟨c, List.mem_cons_self c rest, hc⟩
    · simp [List.takeWhile, hc] at h

/-- Helper: a string accepted by the semver grammar holds a digit (its major
component is a nonempty digit run drawn from the front of the input). -/
lemma semverParse_has_digit (s : String) (v : SemVer) (hv : semverParse s = some v) :
    ∃ c, c ∈ s.data ∧ c.isDigit = true := by
  cases h1 : numIdentFront s.data with
  | none => rw [semverParse, h1] at hv; simp at hv
  | some x =>
    have hds : s.data.takeWhile Char.isDigit ≠ [] := by
      intro hnil
      rw [numIdentFront, hnil] at h1
      simp [isNumericIdent] at h1
    exact takeWhile_head Char.isDigit s.data hds

/-- Helper: Python int on a nonempty digit run yields its value. -/
lemma pyIntDigits_ok (ds : List Char) (h1 : ds ≠ []) (h2 : ds.all Char.isDigit = true) :
    pyIntDigits ds = .ok (digitsToNat ds) := by
  simp [pyIntDigits, h1, h2]

/-- Helper: Python int on the empty string raises ValueError. -/
lemma pyIntDigits_nil : pyIntDigits [] = .error (.valueError "") := rfl

/-- C1: KdumpBase.create is a pure dispatch on the OS family of the node: a
Redhat-like node gets the Redhat variant, a Debian-like node the Debian
variant, a Suse-like node the Suse variant, and every node whose family is
none of these raises the unsupported-distribution error carrying the OS name
and version of the node. -/
theorem kdump_create_dispatch (os : OperatingSystem) :
    (os.family = .redhat → KdumpBase.create os = .ok .redhat) ∧
    (os.family = .debian → KdumpBase.create os = .ok .debian) ∧
    (os.family = .suse → KdumpBase.create os = .ok .suse) ∧
    (os.family ≠ .redhat → os.family ≠ .debian → os.family ≠ .suse →
      KdumpBase.create os = .error (.unsupportedDistro os.name os.version)) := by
  refine ⟨?_, ?_, ?_, ?_⟩ <;> intro h
  · simp [KdumpBase.create, h]
  · simp [KdumpBase.create, h]
  · simp [KdumpBase.create, h]
  · intro h2 h3
    cases hf : os.family
    · exact absurd hf h
    · exact absurd hf h2
    · exact absurd hf h3
    · simp [KdumpBase.create, hf]

/-- Witness for C1 at concrete nodes: an Ubuntu-style Debian-family node gets
the Debian variant, and a FreeBSD-style node of no supported family gets the
unsupported-distribution error with its name and version. -/
theorem kdump_create_dispatch_witness :
    KdumpBase.create ⟨.debian, "Ubuntu", ⟨18, 4, 0, none, none⟩⟩ = .ok .debian ∧
    KdumpBase.create ⟨.other, "FreeBSD", ⟨13, 0, 0, none, none⟩⟩ =
      .error (.unsupportedDistro "FreeBSD" ⟨13, 0, 0, none, none⟩) :=
  ⟨(kdump_create_dispatch ⟨.debian, "Ubuntu", ⟨18, 4, 0, none, none⟩⟩).2.1 rfl,
    (kdump_create_dispatch ⟨.other, "FreeBSD", ⟨13, 0, 0, none, none⟩⟩).2.2.2
      (by simp) (by simp) (by simp)⟩

/-- C2: resolving the crash-dump tool on a Debian-like node selects the Debian
variant, whose service-enable hook enables the Debian-specific service name
kdump-tools rather than the default service name kdump of the base variant. -/
theorem kdump_debian_service_name (os : OperatingSystem) (h : os.family = .debian) :
    KdumpBase.create os = .ok .debian ∧
    KdumpVariant.enable_kdump_service .debian = "kdump-tools" ∧
    kdump_base_service_name = "kdump" ∧
    KdumpVariant.enable_kdump_service .debian ≠ kdump_base_service_name := by
  refine ⟨by simp [KdumpBase.create, h], rfl, rfl, by decide⟩

/-- Witness for C2 at a concrete Debian-family node. -/
theorem kdump_debian_service_name_witness :
    KdumpBase.create ⟨.debian, "Debian", ⟨11, 0, 0, none, none⟩⟩ = .ok .debian ∧
    KdumpVariant.enable_kdump_service .debian = "kdump-tools" ∧
    kdump_base_service_name = "kdump" ∧
    KdumpVariant.enable_kdump_service .debian ≠ kdump_base_service_name :=
  kdump_debian_service_name ⟨.debian, "Debian", ⟨11, 0, 0, none, none⟩⟩ rfl

/-- Helper: the retried flag check succeeds exactly when one of the 60 retry
reads of the flag file is exactly 1. -/
lemma check_kexec_crash_loaded_iff (st : KdumpNodeState) :
    KdumpBase._check_kexec_crash_loaded st = .ok () ↔
      ∃ i, i < 60 ∧ st.kexecCrashReads i = "1" := by
  have h := retryReads_ok_iff st.kexecCrashReads
    (.lisaException "/sys/kernel/kexec_crash_loaded file value is not 1.")
    60 (by omega) 0
  simpa [KdumpBase._check_kexec_crash_loaded, KdumpBase.lisaExceptionCaught] using h

/-- C3: check_crashkernel_loaded returns without error exactly when the
crashkernel reservation parameter occurs in /proc/cmdline, the flag file
/sys/kernel/kexec_crash_loaded exists and reads exactly 1 on some of the 60
bounded-retry attempts, and a Crash kernel reservation entry occurs in
/proc/iomem; whenever any of the three conditions fails it returns a
descriptive error. -/
theorem check_crashkernel_loaded_iff (st : KdumpNodeState) (mem : String) :
    KdumpBase.check_crashkernel_loaded st mem = .ok () ↔
      (pyInStr ("crashkernel=" ++ mem) st.cmdline = true ∧
        (st.kexecCrashExists = true ∧ ∃ i, i < 60 ∧ st.kexecCrashReads i = "1") ∧
        pyInStr "Crash kernel" st.iomem = true) := by
  by_cases h1 : pyInStr ("crashkernel=" ++ mem) st.cmdline = true
  · by_cases h2 : st.kexecCrashExists = true
    · cases h3 : KdumpBase._check_kexec_crash_loaded st with
      | ok u =>
        cases u
        have hex := (check_kexec_crash_loaded_iff st).mp h3
        by_cases h4 : pyInStr "Crash kernel" st.iomem = true
        · simp [KdumpBase.check_crashkernel_loaded, KdumpBase._check_crashkernel_in_cmdline,
            KdumpBase._check_crashkernel_memory_reserved, h1, h2, h3, h4, hex]
        · simp [KdumpBase.check_crashkernel_loaded, KdumpBase._check_crashkernel_in_cmdline,
            KdumpBase._check_crashkernel_memory_reserved, h1, h2, h3, h4]
      | error e =>
        have hnex : ¬∃ i, i < 60 ∧ st.kexecCrashReads i = "1" := by
          intro hex
          have := (check_kexec_crash_loaded_iff st).mpr hex
          rw [h3] at this
          simp at this
        simp [KdumpBase.check_crashkernel_loaded, KdumpBase._check_crashkernel_in_cmdline,
          h1, h2, h3, hnex]
    · simp [KdumpBase.check_crashkernel_loaded, KdumpBase._check_crashkernel_in_cmdline, h1, h2]
  · simp [KdumpBase.check_crashkernel_loaded, KdumpBase._check_crashkernel_in_cmdline, h1]

/-- C4: parse_version maps 2.0.15 to version (2,0,15); 18.04 to (18,4,0);
v1.2.3-beta to (1,2,3) with prerelease beta; and the representative digit-free
input abc raises the invalid-format LisaException. On the lenient path the
slice of the input after the anchored match is recorded as build metadata,
which is empty for these inputs. -/
theorem parse_version_examples :
    parse_version "2.0.15" = .ok ⟨2, 0, 15, none, none⟩ ∧
    parse_version "18.04" = .ok ⟨18, 4, 0, none, some ""⟩ ∧
    parse_version "v1.2.3-beta" = .ok ⟨1, 2, 3, some "beta", some ""⟩ ∧
    parse_version "abc" = .error (.lisaException "The version is invalid format: abc") :=
  ⟨rfl, rfl, rfl, rfl⟩

/-- C5 counterexample: the input consisting of a single period contains no
digit, yet parse_version does not raise the format LisaException: the lenient
pattern matches it with empty numeric groups and int raises ValueError on the
empty literal. -/
theorem parse_version_dot_not_format_error :
    (".".data.all fun c => !c.isDigit) = true ∧
    parse_version "." = .error (.valueError "") ∧
    isFormatError (parse_version ".") = false :=
  ⟨rfl, rfl, rfl⟩

/-- C5 amended: on every input without digits parse_version never succeeds and
never raises any further error kind: when the search of the lenient pattern
fails it raises the format LisaException, and when the pattern matches (which
a digit-free input can only do with an empty major group) int raises
ValueError on the empty literal. -/
theorem parse_version_no_digits_fails (s : String)
    (h : (s.data.all fun c => !c.isDigit) = true) :
    parse_version s = .error (.lisaException ("The version is invalid format: " ++ s)) ∨
    parse_version s = .error (.valueError "") := by
  cases hsv : semverParse s with
  | some v =>
    obtain ⟨c, hc, hd⟩ := semverParse_has_digit s v hsv
    have hall := List.all_eq_true.mp h c hc
    simp [hd] at hall
  | none =>
    cases hlm : lenientMatch s with
    | none => left; simp [parse_version, hsv, hlm]
    | some m =>
      right
      obtain ⟨_, _, hdig⟩ := lenientMatch_groups s m hlm
      have hmaj : m.major = [] := by
        by_contra hne
        obtain ⟨c, hc, hd⟩ := hdig hne
        have hall := List.all_eq_true.mp h c hc
        simp [hd] at hall
      simp only [parse_version, hsv, hlm, hmaj, pyIntDigits_nil]
      rfl

/-- Witness for C5 amended at the digit-free input of a single period. -/
theorem parse_version_no_digits_fails_witness :
    parse_version "." = .error (.lisaException ("The version is invalid format: " ++ ".")) ∨
    parse_version "." = .error (.valueError "") :=
  parse_version_no_digits_fails "." rfl

/-- C6 counterexample: the input 1.2. is handled by the lenient pattern and
its patch component is missing (the group participates as the empty string),
yet the result does not default the patch to zero: int raises ValueError on
the empty literal and parse_version returns no version at all. -/
theorem parse_version_empty_patch_errors :
    lenientMatch "1.2." = some ⟨['1'], ['2'], some [], none, []⟩ ∧
    semverParse "1.2." = none ∧
    parse_version "1.2." = .error (.valueError "") ∧
    (parse_version "1.2.").isOk = false :=
  ⟨rfl, rfl, rfl, rfl⟩

/-- C6 amended: under the lenient pattern, a missing component defaults to
zero only when its group is wholly absent: when the input is not valid semver
and the pattern matches with nonempty major and minor groups and a skipped
patch group, the patch of the result is zero and the slice of the input after
the match (at most one trailing newline, since the pattern is anchored at both
ends) is retained as build metadata; a component that participates as an empty
group instead makes int raise ValueError, as the counterexample shows. -/
theorem parse_version_lenient_defaults (s : String) (m : LenientMatch)
    (hsv : semverParse s = none) (hlm : lenientMatch s = some m)
    (hmj : m.major ≠ []) (hmn : m.minor ≠ []) (hpa : m.patch = none) :
    parse_version s = .ok ⟨digitsToNat m.major, digitsToNat m.minor, 0,
      m.prerelease.map String.mk, some (String.mk m.rest)⟩ := by
  obtain ⟨h1, h2, _⟩ := lenientMatch_groups s m hlm
  simp only [parse_version, hsv, hlm]
  rw [pyIntDigits_ok m.major hmj h1, pyIntDigits_ok m.minor hmn h2, hpa]
  rfl

/-- Witness for C6 amended at the input 7.3: not valid semver, matched with
absent patch group, parsed as (7,3,0) with empty build metadata. -/
theorem parse_version_lenient_defaults_witness :
    semverParse "7.3" = none ∧
    lenientMatch "7.3" = some ⟨['7'], ['3'], none, none, []⟩ ∧
    parse_version "7.3" = .ok ⟨7, 3, 0, none, some ""⟩ :=
  ⟨rfl, rfl,
    parse_version_lenient_defaults "7.3" ⟨['7'], ['3'], none, none, []⟩ rfl rfl
      (by simp) (by simp) rfl⟩

/-- C7: parsed versions are ordered by standard semver precedence: the
comparison is decided by the major components when they differ, else by the
minors, else by the patches, all numerically; a version carrying a nonempty
prerelease orders strictly before the otherwise-equal release without one; in
particular parse_version yields (2,0,14) below (2,0,15) below (2,0,16), and
(1,0,0) with prerelease rc1 orders below plain (1,0,0). -/
theorem version_ordering_semver :
    (∀ a b : SemVer, a.major ≠ b.major → compareVer a b = compare a.major b.major) ∧
    (∀ a b : SemVer, a.major = b.major → a.minor ≠ b.minor →
      compareVer a b = compare a.minor b.minor) ∧
    (∀ a b : SemVer, a.major = b.major → a.minor = b.minor → a.patch ≠ b.patch →
      compareVer a b = compare a.patch b.patch) ∧
    (∀ (mj mn pt : Nat) (p : String) (b1 b2 : Option String), p ≠ "" →
      compareVer ⟨mj, mn, pt, some p, b1⟩ ⟨mj, mn, pt, none, b2⟩ = .lt) ∧
    (parse_version "2.0.14" = .ok ⟨2, 0, 14, none, none⟩ ∧
      parse_version "2.0.15" = .ok ⟨2, 0, 15, none, none⟩ ∧
      parse_version "2.0.16" = .ok ⟨2, 0, 16, none, none⟩ ∧
      compareVer ⟨2, 0, 14, none, none⟩ ⟨2, 0, 15, none, none⟩ = .lt ∧
      compareVer ⟨2, 0, 15, none, none⟩ ⟨2, 0, 16, none, none⟩ = .lt ∧
      compareVer ⟨1, 0, 0, some "rc1", none⟩ ⟨1, 0, 0, none, none⟩ = .lt) := by
  refine ⟨?_, ?_, ?_, ?_, rfl, rfl, rfl, rfl, rfl, rfl⟩
  · intro a b hne
    cases hc : compare a.major b.major with
    | eq => exact absurd (Nat.compare_eq_eq.mp hc) hne
    | lt => simp [compareVer, hc]
    | gt => simp [compareVer, hc]
  · intro a b heq hne
    have h1 : compare a.major b.major = .eq := Nat.compare_eq_eq.mpr heq
    cases hc : compare a.minor b.minor with
    | eq => exact absurd (Nat.compare_eq_eq.mp hc) hne
    | lt => simp [compareVer, h1, hc]
    | gt => simp [compareVer, h1, hc]
  · intro a b heq1 heq2 hne
    have h1 : compare a.major b.major = .eq := Nat.compare_eq_eq.mpr heq1
    have h2 : compare a.minor b.minor = .eq := Nat.compare_eq_eq.mpr heq2
    cases hc : compare a.patch b.patch with
    | eq => exact absurd (Nat.compare_eq_eq.mp hc) hne
    | lt => simp [compareVer, h1, h2, hc]
    | gt => simp [compareVer, h1, h2, hc]
  · intro mj mn pt p b1 b2 hp
    have he : ∀ n : Nat, compare n n = Ordering.eq := fun n => Nat.compare_eq_eq.mpr rfl
    simp [compareVer, he, truthyPre, hp]

/-- Witness for C7 at concrete versions exercising each universal part. -/
theorem version_ordering_semver_witness :
    compareVer ⟨3, 5, 1, none, none⟩ ⟨4, 0, 0, none, none⟩ = compare 3 4 ∧
    compareVer ⟨3, 5, 1, none, none⟩ ⟨3, 7, 0, none, none⟩ = compare 5 7 ∧
    compareVer ⟨3, 5, 1, none, none⟩ ⟨3, 5, 2, none, none⟩ = compare 1 2 ∧
    compareVer ⟨1, 0, 0, some "alpha", none⟩ ⟨1, 0, 0, none, some "b"⟩ = .lt :=
  ⟨version_ordering_semver.1 ⟨3, 5, 1, none, none⟩ ⟨4, 0, 0, none, none⟩ (by decide),
    version_ordering_semver.2.1 ⟨3, 5, 1, none, none⟩ ⟨3, 7, 0, none, none⟩ rfl (by decide),
    version_ordering_semver.2.2.1 ⟨3, 5, 1, none, none⟩ ⟨3, 5, 2, none, none⟩ rfl rfl
      (by decide),
    version_ordering_semver.2.2.2.1 1 0 0 "alpha" none (some "b") (by decide)⟩

/-- C8: the bounded retry with a budget of N attempts returns the success
result when the operation fails with caught exceptions on its first k attempts
and succeeds on the next attempt with k < N; and when every one of the N
attempts fails with a caught exception, the failure of the last attempt is
re-raised with its original exception value. -/
theorem retry_bounded_semantics {E A : Type} (f g : Nat → Except E A)
    (caught : E → Bool) (N k : Nat) (a : A) :
    ((∀ j, j < k → ∃ e, f j = .error e ∧ caught e = true) → f k = .ok a → k < N →
      retryRun f caught 0 N = .ok a) ∧
    (1 ≤ N → (∀ j, j < N → ∃ e, g j = .error e ∧ caught e = true) →
      ∃ e, g (N - 1) = .error e ∧ retryRun g caught 0 N = .error e) := by
  constructor
  · intro hf hok hlt
    apply retryRun_succeeds f caught k N 0 a
    · simpa using hf
    · simpa using hok
    · exact hlt
  · intro hN hg
    have h := retryRun_exhausts g caught N 0 hN (by simpa using hg)
    simpa using h

/-- Witness for C8: an operation failing twice then succeeding returns the
success within a budget of five attempts, and an always-failing operation
re-raises its error after a budget of three attempts. -/
theorem retry_bounded_semantics_witness :
    retryRun (fun i => if i < 2 then .error "boom" else .ok 7) (fun _ => true) 0 5 = .ok 7 ∧
    (∃ e, (fun _ : Nat => (.error "bust" : Except String Nat)) (3 - 1) = .error e ∧
      retryRun (fun _ : Nat => (.error "bust" : Except String Nat)) (fun _ => true) 0 3 =
        .error e) := by
  constructor
  · exact (retry_bounded_semantics (fun i => if i < 2 then .error "boom" else .ok 7)
      (fun _ => (.error "bust" : Except String Nat)) (fun _ => true) 5 2 7).1
      (fun j hj => ⟨"boom", by simp [hj], rfl⟩) (by norm_num) (by omega)
  · exact (retry_bounded_semantics (fun i => if i < 2 then .error "boom" else .ok 7)
      (fun _ => (.error "bust" : Except String Nat)) (fun _ => true) 3 2 7).2
      (by omega) (fun j hj => ⟨"bust", rfl, rfl⟩)

/-- Helper: a match on the current read returns true with no elapsed time. -/
lemma pollLoop_first (reads : Nat → String) (expected : Option (String ⊕ List String))
    (fuel i : Nat) (h : matchesExpected (reads i) expected = true) :
    pollLoop reads expected i (fuel + 1) = (true, 0) := by
  simp [pollLoop, h]

/-- C9: the poll-until-match primitive returns true with zero elapsed time
when the first read already matches the expected value or list; it returns
true exactly when some read within the 120 poll intervals of the timeout
matches; when no read matches it returns false, never raising, with the
elapsed time equal to the timeout (120 half-second intervals for the
sixty-second timeout), hence not past the deadline by more than one poll
interval; and the elapsed time at return never exceeds the timeout. -/
theorem poll_until_match_semantics (reads : Nat → String)
    (expected : Option (String ⊕ List String)) :
    (matchesExpected (reads 0) expected = true →
      _wait_file_changed reads expected = (true, 0)) ∧
    ((∀ i, i < 120 → matchesExpected (reads i) expected = false) →
      _wait_file_changed reads expected = (false, 120)) ∧
    ((_wait_file_changed reads expected).1 = true ↔
      ∃ i, i < 120 ∧ matchesExpected (reads i) expected = true) ∧
    (_wait_file_changed reads expected).2 ≤ 120 := by
  refine ⟨?_, ?_, ?_, ?_⟩
  · intro h
    exact pollLoop_first reads expected 119 0 h
  · intro h
    have hp := pollLoop_nomatch reads expected 120 0 (fun j hj => by
      have := h j hj
      simpa using this)
    simpa [_wait_file_changed] using hp
  · have hp := pollLoop_true_iff reads expected 120 0
    simpa [_wait_file_changed] using hp
  · exact pollLoop_elapsed_le reads expected 120 0

/-- Witness for C9: a first read equal to the expected string returns true at
once, and reads that never join the expected list time out to false at the
120-interval deadline. -/
theorem poll_until_match_semantics_witness :
    _wait_file_changed (fun _ => "tsc") (some (.inl "tsc")) = (true, 0) ∧
    _wait_file_changed (fun _ => "tsc") (some (.inr ["hyperv", "lis"])) = (false, 120) :=
  ⟨(poll_until_match_semantics (fun _ => "tsc") (some (.inl "tsc"))).1 rfl,
    (poll_until_match_semantics (fun _ => "tsc") (some (.inr ["hyperv", "lis"]))).2.1
      (fun _ _ => rfl)⟩

/-- C10: find_patterns_groups_in_lines initializes its result as the Python
list-repeat of one empty list, so every position of the returned outer list
refers to one single shared inner list; with two or more patterns, the entry
reported for every pattern equals the combined matches of all patterns in line
order, rather than only the matches of that pattern. -/
theorem find_patterns_groups_shared_list {α : Type} (lines : String)
    (patterns : List (String → Option α)) (i : Nat)
    (h : i < (find_patterns_groups_in_lines lines patterns).length)
    (_h2 : 2 ≤ patterns.length) :
    (find_patterns_groups_in_lines lines patterns).get ⟨i, h⟩ =
      combinedGroupMatches lines patterns := by
  simp [find_patterns_groups_in_lines]

/-- Witness for C10: with one pattern matching only the line a and a second
matching only the line b, the entry reported for the second pattern contains
the matches of both patterns in line order, not only its own match. -/
theorem find_patterns_groups_shared_list_witness :
    (find_patterns_groups_in_lines "a\nb"
        [fun l => if l = "a" then some 1 else none,
          fun l => if l = "b" then some 2 else none]).get ⟨1, by decide⟩ = [1, 2] ∧
    ([1, 2] : List Nat) ≠ [2] := by
  constructor
  · rw [find_patterns_groups_shared_list "a\nb"
      [fun l => if l = "a" then some 1 else none,
        fun l => if l = "b" then some 2 else none] 1 (by decide) (by decide)]
    rfl
  · decide
